import Mathlib

/-!
Verification of the BlockScene program (src/script.js).

The JavaScript source is shallowly embedded over the rationals.  The ambient
random source `Math.random()` is modelled as a stream `g : Nat → ℚ` of draws
together with an index that advances by one for each consumed draw, in the
exact order the source consumes them.  A draw `r` of the real program
satisfies `0 ≤ r < 1`; theorems that need this take it as a hypothesis on the
stream.  Euclidean norms are compared through their squares, which keeps every
statement inside ℚ: for nonnegative bounds, `length v > c` iff
`normSq v > c ^ 2`.
-/

/-- A 3-component vector over ℚ, modelling THREE.Vector3. -/
structure Vec3 where
  x : ℚ
  y : ℚ
  z : ℚ
deriving DecidableEq, Repr

/-- Componentwise vector addition, modelling Vector3.add. -/
def Vec3.add (a b : Vec3) : Vec3 :=
  ⟨a.x + b.x, a.y + b.y, a.z + b.z⟩

/-- Squared Euclidean norm; Vector3.length squared. -/
def Vec3.normSq (v : Vec3) : ℚ :=
  v.x ^ 2 + v.y ^ 2 + v.z ^ 2

/-- A particle: a mesh with a position and an attached velocity
(script.js lines 152-162). -/
structure Particle where
  position : Vec3
  velocity : Vec3
deriving DecidableEq, Repr

/-- The body of the forEach in animateParticles (script.js lines 172-187):
add the velocity to the position; if the squared norm of the result exceeds
400 (length greater than 20), reseed position into the half-width-5 cube and
velocity into the per-axis range of magnitude below 1/100.  Returns the
updated particle and the next unconsumed random index. -/
def stepParticle (g : Nat → ℚ) (k : Nat) (p : Particle) : Particle × Nat :=
  let pos := Vec3.add p.position p.velocity
  if Vec3.normSq pos > 400 then
    ({ position := ⟨(g k - 1/2) * 10, (g (k+1) - 1/2) * 10, (g (k+2) - 1/2) * 10⟩
       velocity := ⟨(g (k+3) - 1/2) * (1/50), (g (k+4) - 1/2) * (1/50),
                    (g (k+5) - 1/2) * (1/50)⟩ }, k + 6)
  else
    ({ position := pos, velocity := p.velocity }, k)

/-- animateParticles (script.js lines 171-188): apply stepParticle to every
particle in order, threading the random index through. -/
def animateParticles (g : Nat → ℚ) : Nat → List Particle → List Particle × Nat
  | k, [] => ([], k)
  | k, p :: ps =>
    let r := stepParticle g k p
    let rs := animateParticles g r.2 ps
    (r.1 :: rs.1, rs.2)

/-- One particle built by createParticles (script.js lines 152-162): position
components drawn as (r - 1/2) * 30, velocity components as (r - 1/2) * 1/50. -/
def mkParticle (g : Nat → ℚ) (k : Nat) : Particle :=
  { position := ⟨(g k - 1/2) * 30, (g (k+1) - 1/2) * 30, (g (k+2) - 1/2) * 30⟩
    velocity := ⟨(g (k+3) - 1/2) * (1/50), (g (k+4) - 1/2) * (1/50),
                 (g (k+5) - 1/2) * (1/50)⟩ }

/-- createParticles (script.js lines 147-166): particleCount particles, each
consuming six draws. -/
def createParticles (g : Nat → ℚ) (count : Nat) : List Particle :=
  (List.range count).map (fun i => mkParticle g (6 * i))

/-- The particleCount configuration value (script.js line 27). -/
def particleCount : Nat := 300

/-- The color palette (script.js line 25): blue, green, white. -/
def colors : List Nat := [0x1e90ff, 0x00ff7f, 0xffffff]

/-- The blockCount configuration value (script.js line 26). -/
def blockCount : Nat := 150

/-- The clusterRadius configuration value (script.js line 28). -/
def clusterRadius : ℚ := 8

/-- A block mesh: position, randomized size, material color, and scale
(scale defaults to one on every axis on mesh creation). -/
structure Block where
  position : Vec3
  size : ℚ
  color : Nat
  scale : Vec3
deriving DecidableEq, Repr

/-- colors[Math.floor(r * colors.length)] (script.js lines 138 and 242).
Out-of-range access (impossible while 0 ≤ r < 1) is modelled with default 0. -/
def colorPick (r : ℚ) : Nat :=
  colors.getD (⌊r * colors.length⌋).toNat 0

/-- createBlock (script.js lines 108-121): size is drawn as r * 1/2 + 1/2;
the mesh is placed at the given coordinates with the given color. -/
def createBlock (g : Nat → ℚ) (k : Nat) (x y z : ℚ) (color : Nat) : Block :=
  { position := ⟨x, y, z⟩
    size := g k * (1/2) + 1/2
    color := color
    scale := ⟨1, 1, 1⟩ }

/-- The ephemeral cluster center of one iteration of createBlocks
(script.js lines 130-134): each component is (r - 1/2) * 10. -/
def mkClusterCenter (g : Nat → ℚ) (k : Nat) : Vec3 :=
  ⟨(g k - 1/2) * 10, (g (k+1) - 1/2) * 10, (g (k+2) - 1/2) * 10⟩

/-- The per-axis offset added to the cluster center (script.js lines 135-137):
each component is (r - 1/2) * clusterRadius. -/
def clusterOffset (g : Nat → ℚ) (R : ℚ) (k : Nat) : Vec3 :=
  ⟨(g k - 1/2) * R, (g (k+1) - 1/2) * R, (g (k+2) - 1/2) * R⟩

/-- The unused clusterIndex draw (script.js line 129): Math.floor(r * 3).
It consumes one random draw per block and is never read again. -/
def clusterIndex (r : ℚ) : Nat :=
  (⌊r * 3⌋).toNat

/-- One iteration of the createBlocks loop (script.js lines 127-141), with
base random index b.  Draw order within the iteration: clusterIndex at b,
cluster center at b+1..b+3, per-axis offsets at b+4..b+6, color at b+7, and
size (inside createBlock) at b+8. -/
def mkSceneBlock (g : Nat → ℚ) (R : ℚ) (b : Nat) : Block :=
  let c := mkClusterCenter g (b+1)
  let o := clusterOffset g R (b+4)
  createBlock g (b+8) (c.x + o.x) (c.y + o.y) (c.z + o.z) (colorPick (g (b+7)))

/-- createBlocks (script.js lines 126-142): blockCount iterations, each
consuming nine draws. -/
def createBlocks (g : Nat → ℚ) (R : ℚ) (count : Nat) : List Block :=
  (List.range count).map (fun i => mkSceneBlock g R (9 * i))

/-- The interactive scene state read and written by the pointer handlers:
the children of blockGroup, the lastIntersected back-reference, and the
stored normalized mouse coordinates (this.mouse). -/
structure IState (n : Nat) where
  blocks : Fin n → Block
  lastIntersected : Option (Fin n)
  mouse : ℚ × ℚ

/-- The state right after init: all blocks as generated (scale one on every
axis), lastIntersected = null (script.js line 17) and mouse = (0, 0), the
default THREE.Vector2 (script.js line 16). -/
def initIState (blocks : Fin n → Block) : IState n :=
  { blocks := blocks, lastIntersected := none, mouse := (0, 0) }

/-- The scale-reset step of onMouseMove (script.js lines 220-222): if a
previous hover target is recorded, its scale is set back to one on every
axis. -/
def resetLast (s : IState n) : Fin n → Block :=
  match s.lastIntersected with
  | some i => Function.update s.blocks i { s.blocks i with scale := ⟨1, 1, 1⟩ }
  | none => s.blocks

/-- onMouseMove (script.js lines 212-230).  The raycast against
blockGroup.children is abstracted as an oracle `ray` from normalized mouse
coordinates to the nearest intersected block index, if any.  The handler
normalizes the event coordinates, stores them, resets the scale of the
previous hover target, then scales the new hit (if any) to 11/10 per axis
and records it. -/
def onMouseMove (ray : ℚ × ℚ → Option (Fin n)) (clientX clientY winW winH : ℚ)
    (s : IState n) : IState n :=
  let m : ℚ × ℚ := (clientX / winW * 2 - 1, -(clientY / winH) * 2 + 1)
  match ray m with
  | some j =>
    { blocks := Function.update (resetLast s) j
        { resetLast s j with scale := ⟨11/10, 11/10, 11/10⟩ }
      lastIntersected := some j
      mouse := m }
  | none =>
    { blocks := resetLast s, lastIntersected := none, mouse := m }

/-- onMouseClick (script.js lines 236-244): recast the ray from the STORED
mouse coordinates (the event is not read), and if a block is hit assign it a
fresh palette color drawn at random index k.  Nothing else is touched. -/
def onMouseClick (ray : ℚ × ℚ → Option (Fin n)) (g : Nat → ℚ) (k : Nat)
    (s : IState n) : IState n :=
  match ray s.mouse with
  | some i =>
    { s with blocks := (Function.update s.blocks i
        { s.blocks i with color := colorPick (g k) }) }
  | none => s

/-- A pointer-move event: the per-event raycast oracle (the camera may have
moved between events) together with clientX, clientY and the window size. -/
structure MoveEvent (n : Nat) where
  ray : ℚ × ℚ → Option (Fin n)
  clientX : ℚ
  clientY : ℚ
  winW : ℚ
  winH : ℚ

/-- Run a sequence of pointer-move events through onMouseMove. -/
def runMoves (s : IState n) : List (MoveEvent n) → IState n
  | [] => s
  | e :: es => runMoves (onMouseMove e.ray e.clientX e.clientY e.winW e.winH s) es

/-- What the renderer is asked to draw: the scene graph as it stands when
renderer.render fires (rotation of the block group, particle positions) and
the state of the camera controls. -/
structure RenderCall where
  rotX : ℚ
  rotY : ℚ
  particlePositions : List Vec3
  controlsUpdates : Nat
deriving DecidableEq, Repr

/-- The mutable state the animate loop touches: blockGroup.rotation.x and .y,
the particle list, the random stream index, a counter of controls.update
calls (the camera-control collaborator is opaque), and the last render
request issued. -/
structure FrameState where
  rotX : ℚ
  rotY : ℚ
  particles : List Particle
  randIdx : Nat
  controlsUpdates : Nat
  lastRender : Option RenderCall
deriving DecidableEq, Repr

/-- animate (script.js lines 249-264).  The requestAnimationFrame timestamp t
is accepted but never read, exactly as the source callback ignores it.  In
order: rotation.x += 0.002, rotation.y += 0.002, animateParticles,
controls.update, renderer.render of the now-current scene. -/
def animate (g : Nat → ℚ) (_t : ℚ) (s : FrameState) : FrameState :=
  let rotX := s.rotX + 2/1000
  let rotY := s.rotY + 2/1000
  let stepped := animateParticles g s.randIdx s.particles
  let cu := s.controlsUpdates + 1
  { rotX := rotX
    rotY := rotY
    particles := stepped.1
    randIdx := stepped.2
    controlsUpdates := cu
    lastRender := some ⟨rotX, rotY, stepped.1.map Particle.position, cu⟩ }

/-- Default particle used for out-of-range list reads in statements. -/
def defaultParticle : Particle := ⟨⟨0, 0, 0⟩, ⟨0, 0, 0⟩⟩

theorem stepParticle_keep (g : Nat → ℚ) (k : Nat) (p : Particle)
    (h : Vec3.normSq (Vec3.add p.position p.velocity) ≤ 400) :
    stepParticle g k p =
      ({ position := Vec3.add p.position p.velocity, velocity := p.velocity }, k) := by
  simp only [stepParticle]
  rw [if_neg (not_lt.mpr h)]

theorem stepParticle_reseed (g : Nat → ℚ) (k : Nat) (p : Particle)
    (h : Vec3.normSq (Vec3.add p.position p.velocity) > 400) :
    stepParticle g k p =
      ({ position := ⟨(g k - 1/2) * 10, (g (k+1) - 1/2) * 10, (g (k+2) - 1/2) * 10⟩
         velocity := ⟨(g (k+3) - 1/2) * (1/50), (g (k+4) - 1/2) * (1/50),
                      (g (k+5) - 1/2) * (1/50)⟩ }, k + 6) := by
  simp only [stepParticle]
  rw [if_pos h]

theorem animateParticles_cons (g : Nat → ℚ) (k : Nat) (p : Particle)
    (ps : List Particle) :
    animateParticles g k (p :: ps) =
      ((stepParticle g k p).1 :: (animateParticles g (stepParticle g k p).2 ps).1,
       (animateParticles g (stepParticle g k p).2 ps).2) := rfl

theorem shift10_bounds {r : ℚ} (h0 : 0 ≤ r) (h1 : r < 1) :
    -5 ≤ (r - 1/2) * 10 ∧ (r - 1/2) * 10 < 5 := by
  constructor <;> nlinarith

theorem shift50_bounds {r : ℚ} (h0 : 0 ≤ r) (h1 : r < 1) :
    -(1/100) ≤ (r - 1/2) * (1/50) ∧ (r - 1/2) * (1/50) ≤ 1/100 := by
  constructor <;> nlinarith

theorem unit_shift_sq_le {r : ℚ} (h0 : 0 ≤ r) (h1 : r < 1) :
    ((r - 1/2) * 10) ^ 2 ≤ 25 := by
  nlinarith [mul_nonneg h0 (by linarith : (0:ℚ) ≤ 1 - r)]

theorem stepParticle_normSq_le (g : Nat → ℚ) (k : Nat) (p : Particle)
    (hg : ∀ m, 0 ≤ g m ∧ g m < 1) :
    Vec3.normSq (stepParticle g k p).1.position ≤ 400 := by
  by_cases h : Vec3.normSq (Vec3.add p.position p.velocity) > 400
  · rw [stepParticle_reseed g k p h]
    have b1 := unit_shift_sq_le (hg k).1 (hg k).2
    have b2 := unit_shift_sq_le (hg (k+1)).1 (hg (k+1)).2
    have b3 := unit_shift_sq_le (hg (k+2)).1 (hg (k+2)).2
    simp only [Vec3.normSq]
    linarith
  · rw [stepParticle_keep g k p (not_lt.mp h)]
    exact not_lt.mp h

theorem animateParticles_getD_keep (g : Nat → ℚ) :
    ∀ (ps : List Particle) (k i : Nat),
      Vec3.normSq (Vec3.add (ps.getD i defaultParticle).position
          (ps.getD i defaultParticle).velocity) ≤ 400 →
      (animateParticles g k ps).1.getD i defaultParticle =
        { position := Vec3.add (ps.getD i defaultParticle).position
            (ps.getD i defaultParticle).velocity
          velocity := (ps.getD i defaultParticle).velocity } := by
  intro ps
  induction ps with
  | nil =>
    intro k i _
    simp [animateParticles, defaultParticle, Vec3.add]
  | cons p ps ih =>
    intro k i hle
    rw [animateParticles_cons]
    cases i with
    | zero =>
      simp only [List.getD_cons_zero] at hle ⊢
      rw [stepParticle_keep g k p hle]
    | succ j =>
      simp only [List.getD_cons_succ] at hle ⊢
      exact ih (stepParticle g k p).2 j hle

/-- C1 (counterexample): a particle at position (21, 0, 0) — Euclidean norm
21 exceeding 20 — with zero velocity is NOT left in place by the per-frame
update: the reseed branch fires (squared norm 441 > 400) and, under the
all-zero random stream (a legal stream, every draw in [0,1)), the particle
moves to (-5, -5, -5). -/
theorem C1_zero_velocity_counterexample :
    (⟨⟨21, 0, 0⟩, ⟨0, 0, 0⟩⟩ : Particle).velocity = ⟨0, 0, 0⟩ ∧
    (stepParticle (fun _ => 0) 0 ⟨⟨21, 0, 0⟩, ⟨0, 0, 0⟩⟩).1.position ≠
      (⟨21, 0, 0⟩ : Vec3) := by
  constructor
  · rfl
  · norm_num [stepParticle, Vec3.add, Vec3.normSq]

/-- C1 (amended): the per-frame particle update with zero velocity leaves the
position of a particle unchanged PROVIDED its squared Euclidean norm is at
most 400 (norm at most 20, so the reseed branch does not fire).  Stated for
the particle at any index i of the particle list run through
animateParticles. -/
theorem C1_zero_velocity_keeps_position (g : Nat → ℚ) (k i : Nat)
    (ps : List Particle)
    (hv : (ps.getD i defaultParticle).velocity = ⟨0, 0, 0⟩)
    (hp : Vec3.normSq (ps.getD i defaultParticle).position ≤ 400) :
    ((animateParticles g k ps).1.getD i defaultParticle).position =
      (ps.getD i defaultParticle).position := by
  have hadd : Vec3.add (ps.getD i defaultParticle).position
      (ps.getD i defaultParticle).velocity = (ps.getD i defaultParticle).position := by
    rw [hv]
    simp [Vec3.add]
  rw [animateParticles_getD_keep g ps k i (by rw [hadd]; exact hp)]
  exact hadd

/-- Witness for C1: a two-particle list in which particle 1 sits at (1, 2, 3)
with zero velocity; the update leaves its position at (1, 2, 3). -/
theorem C1_zero_velocity_keeps_position_witness :
    (([⟨⟨17, 0, 0⟩, ⟨1, 0, 0⟩⟩, ⟨⟨1, 2, 3⟩, ⟨0, 0, 0⟩⟩] : List Particle).getD 1
        defaultParticle).velocity = ⟨0, 0, 0⟩ ∧
    ((animateParticles (fun _ => 0) 0
        [⟨⟨17, 0, 0⟩, ⟨1, 0, 0⟩⟩, ⟨⟨1, 2, 3⟩, ⟨0, 0, 0⟩⟩]).1.getD 1
        defaultParticle).position = ⟨1, 2, 3⟩ := by
  refine ⟨rfl, ?_⟩
  have h := C1_zero_velocity_keeps_position (fun _ => 0) 0 1
    [⟨⟨17, 0, 0⟩, ⟨1, 0, 0⟩⟩, ⟨⟨1, 2, 3⟩, ⟨0, 0, 0⟩⟩] rfl
    (by norm_num [Vec3.normSq])
  rw [h]
  rfl

/-- C2 (counterexample): the reseed branch fires at (21, 0, 0) (squared
post-add norm 441 > 400), and under the all-zero random stream — a legal
stream, every draw in [0,1) — the reseeded position is (-5, -5, -5), whose
squared norm is exactly 75, i.e. norm exactly 5·√3.  This refutes the
claimed strict bound norm < 5·√3 (equivalently squared norm < 75). -/
theorem C2_boundary_reseed_counterexample :
    Vec3.normSq (Vec3.add (⟨21, 0, 0⟩ : Vec3) ⟨0, 0, 0⟩) > 400 ∧
    (stepParticle (fun _ => 0) 0 ⟨⟨21, 0, 0⟩, ⟨0, 0, 0⟩⟩).1.position =
      ⟨-5, -5, -5⟩ ∧
    ¬ Vec3.normSq
        (stepParticle (fun _ => 0) 0 ⟨⟨21, 0, 0⟩, ⟨0, 0, 0⟩⟩).1.position < 75 := by
  refine ⟨by norm_num [Vec3.add, Vec3.normSq], ?_, ?_⟩
  · norm_num [stepParticle, Vec3.add, Vec3.normSq]
  · norm_num [stepParticle, Vec3.add, Vec3.normSq]

/-- C2 (amended): when the squared norm after the velocity add exceeds 400,
the particle is reseeded — the new position components are exactly
(r - 1/2) * 10 for the next three draws, hence each lies in [-5, 5) (the
cube of half-width 5), with squared norm at most 75 (norm at most 5·√3,
with equality possible), and the new velocity components are exactly
(r - 1/2) * 1/50 for the following three draws, hence each has magnitude at
most 1/100.  When the squared post-add norm is at most 400 the particle
keeps position + velocity and its old velocity. -/
theorem C2_boundary_reseed_law (g : Nat → ℚ) (k : Nat) (p : Particle)
    (hg : ∀ m, 0 ≤ g m ∧ g m < 1) :
    (Vec3.normSq (Vec3.add p.position p.velocity) > 400 →
      (stepParticle g k p).1.position =
        ⟨(g k - 1/2) * 10, (g (k+1) - 1/2) * 10, (g (k+2) - 1/2) * 10⟩ ∧
      (∀ c ∈ [(stepParticle g k p).1.position.x, (stepParticle g k p).1.position.y,
          (stepParticle g k p).1.position.z], -5 ≤ c ∧ c < 5) ∧
      Vec3.normSq (stepParticle g k p).1.position ≤ 75 ∧
      (stepParticle g k p).1.velocity =
        ⟨(g (k+3) - 1/2) * (1/50), (g (k+4) - 1/2) * (1/50),
         (g (k+5) - 1/2) * (1/50)⟩ ∧
      (∀ c ∈ [(stepParticle g k p).1.velocity.x, (stepParticle g k p).1.velocity.y,
          (stepParticle g k p).1.velocity.z], -(1/100) ≤ c ∧ c ≤ 1/100)) ∧
    (Vec3.normSq (Vec3.add p.position p.velocity) ≤ 400 →
      (stepParticle g k p).1.position = Vec3.add p.position p.velocity ∧
      (stepParticle g k p).1.velocity = p.velocity) := by
  constructor
  · intro h
    rw [stepParticle_reseed g k p h]
    refine ⟨rfl, ?_, ?_, rfl, ?_⟩
    · intro c hc
      simp only [List.mem_cons, List.not_mem_nil, or_false] at hc
      rcases hc with hc | hc | hc <;> rw [hc] <;>
        exact shift10_bounds (hg _).1 (hg _).2
    · have b1 := unit_shift_sq_le (hg k).1 (hg k).2
      have b2 := unit_shift_sq_le (hg (k+1)).1 (hg (k+1)).2
      have b3 := unit_shift_sq_le (hg (k+2)).1 (hg (k+2)).2
      simp only [Vec3.normSq]
      linarith
    · intro c hc
      simp only [List.mem_cons, List.not_mem_nil, or_false] at hc
      rcases hc with hc | hc | hc <;> rw [hc] <;>
        exact shift50_bounds (hg _).1 (hg _).2
  · intro h
    rw [stepParticle_keep g k p h]
    exact ⟨rfl, rfl⟩

/-- Witness for C2: at position (21, 0, 0) under the constant-1/2 stream, the
particle is reseeded to the origin with zero velocity. -/
theorem C2_boundary_reseed_law_witness :
    (stepParticle (fun _ => (1:ℚ)/2) 0 ⟨⟨21, 0, 0⟩, ⟨0, 0, 0⟩⟩).1.position =
      ⟨0, 0, 0⟩ ∧
    (stepParticle (fun _ => (1:ℚ)/2) 0 ⟨⟨21, 0, 0⟩, ⟨0, 0, 0⟩⟩).1.velocity =
      ⟨0, 0, 0⟩ := by
  have h := C2_boundary_reseed_law (fun _ => (1:ℚ)/2) 0 ⟨⟨21, 0, 0⟩, ⟨0, 0, 0⟩⟩
    (fun m => by norm_num)
  have h1 := h.1 (by norm_num [Vec3.add, Vec3.normSq])
  refine ⟨?_, ?_⟩
  · rw [h1.1]
    norm_num
  · rw [h1.2.2.2.1]
    norm_num

/-- C9: after any single animateParticles call, every particle in the
resulting list has squared position norm at most 400 (Euclidean norm at most
20) — the boundary check runs inside the same update that moved the particle,
and reseeded positions land in the half-width-5 cube, of squared norm at most
75 < 400 — and the number of particles is unchanged. -/
theorem C9_post_update_norm_bound (g : Nat → ℚ) (hg : ∀ m, 0 ≤ g m ∧ g m < 1) :
    ∀ (ps : List Particle) (k : Nat),
      (∀ q ∈ (animateParticles g k ps).1, Vec3.normSq q.position ≤ 400) ∧
      (animateParticles g k ps).1.length = ps.length := by
  intro ps
  induction ps with
  | nil =>
    intro k
    refine ⟨?_, rfl⟩
    intro q hq
    simp [animateParticles] at hq
  | cons p ps ih =>
    intro k
    rw [animateParticles_cons]
    constructor
    · intro q hq
      simp only [List.mem_cons] at hq
      rcases hq with hq | hq
      · rw [hq]
        exact stepParticle_normSq_le g k p hg
      · exact (ih (stepParticle g k p).2).1 q hq
    · simp only [List.length_cons]
      rw [(ih (stepParticle g k p).2).2]

/-- Witness for C9: a concrete two-particle list (one of which is pushed past
the boundary) after one update has both positions of squared norm at most 400
and still has two particles. -/
theorem C9_post_update_norm_bound_witness :
    (∀ q ∈ (animateParticles (fun _ => (0:ℚ)) 0
        [⟨⟨21, 0, 0⟩, ⟨0, 0, 0⟩⟩, ⟨⟨1, 2, 3⟩, ⟨1, 0, 0⟩⟩]).1,
      Vec3.normSq q.position ≤ 400) ∧
    (animateParticles (fun _ => (0:ℚ)) 0
        [⟨⟨21, 0, 0⟩, ⟨0, 0, 0⟩⟩, ⟨⟨1, 2, 3⟩, ⟨1, 0, 0⟩⟩]).1.length = 2 :=
  C9_post_update_norm_bound (fun _ => 0) (fun m => by norm_num)
    [⟨⟨21, 0, 0⟩, ⟨0, 0, 0⟩⟩, ⟨⟨1, 2, 3⟩, ⟨1, 0, 0⟩⟩] 0

/-- A concrete block used in witnesses: scale one on every axis. -/
def defaultBlock : Block :=
  { position := ⟨0, 0, 0⟩, size := 1, color := 0x1e90ff, scale := ⟨1, 1, 1⟩ }

/-- The inductive hover invariant: every block other than the recorded hover
target has scale one on every axis, and the recorded hover target (when set)
has scale 11/10 on every axis. -/
def hoverInv (s : IState n) : Prop :=
  (∀ i, s.lastIntersected ≠ some i → (s.blocks i).scale = ⟨1, 1, 1⟩) ∧
  (∀ i, s.lastIntersected = some i → (s.blocks i).scale = ⟨11/10, 11/10, 11/10⟩)

theorem resetLast_scale (s : IState n) (hs : hoverInv s) (i : Fin n) :
    (resetLast s i).scale = ⟨1, 1, 1⟩ := by
  cases hl : s.lastIntersected with
  | none =>
    simp only [resetLast, hl]
    exact hs.1 i (by rw [hl]; exact fun hc => Option.noConfusion hc)
  | some j =>
    simp only [resetLast, hl]
    by_cases hij : i = j
    · subst hij
      rw [Function.update_same]
    · rw [Function.update_noteq hij]
      exact hs.1 i (by rw [hl]; exact fun hc => hij (Option.some.inj hc).symm)

theorem onMouseMove_hoverInv (ray : ℚ × ℚ → Option (Fin n))
    (clientX clientY winW winH : ℚ) (s : IState n) (hs : hoverInv s) :
    hoverInv (onMouseMove ray clientX clientY winW winH s) := by
  cases hr : ray (clientX / winW * 2 - 1, -(clientY / winH) * 2 + 1) with
  | none =>
    simp only [onMouseMove, hr, hoverInv]
    exact ⟨fun i _ => resetLast_scale s hs i, fun i hi => Option.noConfusion hi⟩
  | some j =>
    simp only [onMouseMove, hr, hoverInv]
    constructor
    · intro i hi
      have hij : i ≠ j := fun he => hi (by rw [he])
      rw [Function.update_noteq hij]
      exact resetLast_scale s hs i
    · intro i hi
      have hij : j = i := Option.some.inj hi
      subst hij
      rw [Function.update_same]

theorem runMoves_hoverInv (es : List (MoveEvent n)) :
    ∀ s : IState n, hoverInv s → hoverInv (runMoves s es) := by
  induction es with
  | nil => exact fun s hs => hs
  | cons e es ih =>
    intro s hs
    exact ih _ (onMouseMove_hoverInv e.ray e.clientX e.clientY e.winW e.winH s hs)

theorem initIState_hoverInv (blocks0 : Fin n → Block)
    (h0 : ∀ i, (blocks0 i).scale = ⟨1, 1, 1⟩) :
    hoverInv (initIState blocks0) := by
  refine ⟨fun i _ => h0 i, fun i hi => ?_⟩
  exact absurd hi (by exact fun hc => Option.noConfusion hc)

/-- C3: starting from the initial state (all scales one, no hover target),
after any sequence of pointer-move events at most one block has scale
different from one, and any such block is the recorded hover target and has
scale exactly 11/10 on every axis. -/
theorem C3_hover_at_most_one (n : Nat) (blocks0 : Fin n → Block)
    (h0 : ∀ i, (blocks0 i).scale = ⟨1, 1, 1⟩) (es : List (MoveEvent n)) :
    (∀ i j : Fin n,
      ((runMoves (initIState blocks0) es).blocks i).scale ≠ ⟨1, 1, 1⟩ →
      ((runMoves (initIState blocks0) es).blocks j).scale ≠ ⟨1, 1, 1⟩ → i = j) ∧
    (∀ i : Fin n,
      ((runMoves (initIState blocks0) es).blocks i).scale ≠ ⟨1, 1, 1⟩ →
      (runMoves (initIState blocks0) es).lastIntersected = some i ∧
      ((runMoves (initIState blocks0) es).blocks i).scale =
        ⟨11/10, 11/10, 11/10⟩) := by
  have hinv := runMoves_hoverInv es (initIState blocks0)
    (initIState_hoverInv blocks0 h0)
  have hkey : ∀ i : Fin n,
      ((runMoves (initIState blocks0) es).blocks i).scale ≠ ⟨1, 1, 1⟩ →
      (runMoves (initIState blocks0) es).lastIntersected = some i := by
    intro i hi
    by_contra hne
    exact hi (hinv.1 i hne)
  constructor
  · intro i j hi hj
    have := (hkey i hi).symm.trans (hkey j hj)
    exact Option.some.inj this
  · intro i hi
    exact ⟨hkey i hi, hinv.2 i (hkey i hi)⟩

/-- Witness for C3: with two blocks and a single pointer-move whose ray hits
block 0, any block with scale different from one is block 0, the recorded
hover target, at scale 11/10. -/
theorem C3_hover_at_most_one_witness :
    (∀ i : Fin 2, ((fun _ : Fin 2 => defaultBlock) i).scale = ⟨1, 1, 1⟩) ∧
    (∀ i : Fin 2,
      ((runMoves (initIState fun _ : Fin 2 => defaultBlock)
          [⟨fun _ => some 0, 3, 4, 10, 10⟩]).blocks i).scale ≠ ⟨1, 1, 1⟩ →
      (runMoves (initIState fun _ : Fin 2 => defaultBlock)
          [⟨fun _ => some 0, 3, 4, 10, 10⟩]).lastIntersected = some i ∧
      ((runMoves (initIState fun _ : Fin 2 => defaultBlock)
          [⟨fun _ => some 0, 3, 4, 10, 10⟩]).blocks i).scale =
        ⟨11/10, 11/10, 11/10⟩) :=
  ⟨fun _ => rfl,
   (C3_hover_at_most_one 2 (fun _ => defaultBlock) (fun _ => rfl)
      [⟨fun _ => some 0, 3, 4, 10, 10⟩]).2⟩

/-- C4: a click whose ray (cast from the stored mouse coordinates) intersects
no block leaves the whole interactive state unchanged: every block keeps its
color, position, scale and size, and the hover target and mouse coordinates
are untouched. -/
theorem C4_click_miss_is_noop (n : Nat) (ray : ℚ × ℚ → Option (Fin n))
    (g : Nat → ℚ) (k : Nat) (s : IState n) (h : ray s.mouse = none) :
    onMouseClick ray g k s = s := by
  unfold onMouseClick
  rw [h]

/-- Witness for C4: clicking a one-block scene with a ray oracle that never
hits returns the initial state unchanged. -/
theorem C4_click_miss_is_noop_witness :
    (fun _ : ℚ × ℚ => (none : Option (Fin 1)))
        (initIState fun _ : Fin 1 => defaultBlock).mouse = none ∧
    onMouseClick (fun _ => none) (fun _ => 0) 0
        (initIState fun _ : Fin 1 => defaultBlock) =
      initIState (fun _ : Fin 1 => defaultBlock) :=
  ⟨rfl, C4_click_miss_is_noop 1 (fun _ => none) (fun _ => 0) 0
      (initIState fun _ : Fin 1 => defaultBlock) rfl⟩

/-- C10: in the state produced by init, before any pointer-move has fired,
the stored mouse coordinates are (0, 0) — the normalized viewport center —
so a click casts its ray there, and if that ray hits block i, the color of
block i is reassigned to the freshly drawn palette pick. -/
theorem C10_first_click_uses_center (n : Nat) (blocks0 : Fin n → Block)
    (ray : ℚ × ℚ → Option (Fin n)) (g : Nat → ℚ) (k : Nat) (i : Fin n)
    (h : ray (0, 0) = some i) :
    (initIState blocks0).mouse = (0, 0) ∧
    (onMouseClick ray g k (initIState blocks0)).blocks i =
      { blocks0 i with color := colorPick (g k) } := by
  refine ⟨rfl, ?_⟩
  simp only [onMouseClick, initIState, h]
  rw [Function.update_same]

/-- Witness for C10: a one-block scene whose center ray hits block 0; the
click recolors block 0 with the palette pick of draw 0 (here blue). -/
theorem C10_first_click_uses_center_witness :
    (fun _ : ℚ × ℚ => some (0 : Fin 1)) (0, 0) = some 0 ∧
    (initIState fun _ : Fin 1 => defaultBlock).mouse = (0, 0) ∧
    (onMouseClick (fun _ => some 0) (fun _ => 0) 0
        (initIState fun _ : Fin 1 => defaultBlock)).blocks 0 =
      { defaultBlock with color := colorPick 0 } :=
  ⟨rfl,
   C10_first_click_uses_center 1 (fun _ => defaultBlock) (fun _ => some 0)
     (fun _ => 0) 0 0 rfl⟩

theorem shift30_bounds {r : ℚ} (h0 : 0 ≤ r) (h1 : r < 1) :
    -15 ≤ (r - 1/2) * 30 ∧ (r - 1/2) * 30 < 15 := by
  constructor <;> nlinarith

theorem shift50_strict {r : ℚ} (h0 : 0 ≤ r) (h1 : r < 1) :
    -(1/100) ≤ (r - 1/2) * (1/50) ∧ (r - 1/2) * (1/50) < 1/100 := by
  constructor <;> nlinarith

theorem shiftR_bounds {r R : ℚ} (h0 : 0 ≤ r) (h1 : r < 1) (hR : 0 ≤ R) :
    -(R/2) ≤ (r - 1/2) * R ∧ (r - 1/2) * R ≤ R/2 := by
  constructor
  · nlinarith [mul_nonneg h0 hR]
  · nlinarith [mul_nonneg (by linarith : (0:ℚ) ≤ 1 - r) hR]

theorem colorPick_mem {r : ℚ} (h0 : 0 ≤ r) (h1 : r < 1) :
    colorPick r ∈ colors := by
  have hlen : ((colors.length : ℚ)) = 3 := by norm_num [colors]
  unfold colorPick
  rw [hlen]
  have hub : ⌊r * (3:ℚ)⌋ < 3 := Int.floor_lt.mpr (by push_cast; linarith)
  have hlb : (0:ℤ) ≤ ⌊r * (3:ℚ)⌋ := Int.floor_nonneg.mpr (by linarith)
  have hm : (⌊r * (3:ℚ)⌋).toNat = 0 ∨ (⌊r * (3:ℚ)⌋).toNat = 1 ∨
      (⌊r * (3:ℚ)⌋).toNat = 2 := by omega
  rcases hm with hm | hm | hm <;> rw [hm] <;> simp [colors]

/-- C7: every particle produced by createParticles has every initial position
component in [-15, 15) and every initial velocity component in
[-1/100, 1/100). -/
theorem C7_particle_init_ranges (g : Nat → ℚ) (count : Nat)
    (hg : ∀ m, 0 ≤ g m ∧ g m < 1) :
    ∀ p ∈ createParticles g count,
      (∀ c ∈ [p.position.x, p.position.y, p.position.z], -15 ≤ c ∧ c < 15) ∧
      (∀ c ∈ [p.velocity.x, p.velocity.y, p.velocity.z],
        -(1/100) ≤ c ∧ c < 1/100) := by
  intro p hp
  simp only [createParticles, List.mem_map, List.mem_range] at hp
  obtain ⟨i, hi, rfl⟩ := hp
  constructor
  · intro c hc
    simp only [mkParticle, List.mem_cons, List.not_mem_nil, or_false] at hc
    rcases hc with hc | hc | hc <;> rw [hc] <;>
      exact shift30_bounds (hg _).1 (hg _).2
  · intro c hc
    simp only [mkParticle, List.mem_cons, List.not_mem_nil, or_false] at hc
    rcases hc with hc | hc | hc <;> rw [hc] <;>
      exact shift50_strict (hg _).1 (hg _).2

/-- Witness for C7: under the constant-1/2 stream every generated particle
sits at the origin with zero velocity, inside the stated ranges. -/
theorem C7_particle_init_ranges_witness :
    (∀ c ∈ [((createParticles (fun _ => (1:ℚ)/2) 2).getD 0
          defaultParticle).position.x,
        ((createParticles (fun _ => (1:ℚ)/2) 2).getD 0
          defaultParticle).position.y,
        ((createParticles (fun _ => (1:ℚ)/2) 2).getD 0
          defaultParticle).position.z], -15 ≤ c ∧ c < 15) ∧
    (∀ c ∈ [((createParticles (fun _ => (1:ℚ)/2) 2).getD 0
          defaultParticle).velocity.x,
        ((createParticles (fun _ => (1:ℚ)/2) 2).getD 0
          defaultParticle).velocity.y,
        ((createParticles (fun _ => (1:ℚ)/2) 2).getD 0
          defaultParticle).velocity.z], -(1/100) ≤ c ∧ c < 1/100) := by
  apply C7_particle_init_ranges (fun _ => (1:ℚ)/2) 2 (fun m => by norm_num)
  simp [createParticles, List.range_succ]

/-- C6: every block produced by createBlocks has size in [1/2, 1) and a color
from the three-entry palette. -/
theorem C6_block_size_color (g : Nat → ℚ) (R : ℚ) (count : Nat)
    (hg : ∀ m, 0 ≤ g m ∧ g m < 1) :
    ∀ blk ∈ createBlocks g R count,
      (1/2 ≤ blk.size ∧ blk.size < 1) ∧ blk.color ∈ colors := by
  intro blk hb
  simp only [createBlocks, List.mem_map, List.mem_range] at hb
  obtain ⟨i, hi, rfl⟩ := hb
  constructor
  · have h0 := (hg (9*i+8)).1
    have h1 := (hg (9*i+8)).2
    constructor
    · show 1/2 ≤ g (9*i+8) * (1/2) + 1/2
      linarith
    · show g (9*i+8) * (1/2) + 1/2 < 1
      linarith
  · exact colorPick_mem (hg (9*i+7)).1 (hg (9*i+7)).2

/-- Witness for C6: under the constant-1/2 stream the single generated block
has size 3/4 and the green palette color. -/
theorem C6_block_size_color_witness :
    (1/2 ≤ ((createBlocks (fun _ => (1:ℚ)/2) 8 1).getD 0 defaultBlock).size ∧
      ((createBlocks (fun _ => (1:ℚ)/2) 8 1).getD 0 defaultBlock).size < 1) ∧
    ((createBlocks (fun _ => (1:ℚ)/2) 8 1).getD 0 defaultBlock).color ∈
      colors := by
  apply C6_block_size_color (fun _ => (1:ℚ)/2) 8 1 (fun m => by norm_num)
  simp [createBlocks, List.range_succ]

theorem createBlocks_getD (g : Nat → ℚ) (R : ℚ) (count i : Nat)
    (hi : i < count) :
    (createBlocks g R count).getD i defaultBlock = mkSceneBlock g R (9 * i) := by
  have hlen : i < (createBlocks g R count).length := by
    simpa [createBlocks] using hi
  rw [List.getD_eq_getElem _ _ hlen]
  simp [createBlocks]

/-- C5: the i-th generated block sits at cluster center plus per-axis offset,
where the center components are the draws (r - 1/2) * 10 — hence in [-5, 5),
the cube of half-width 5 — and the offset components are (r - 1/2) * R, hence
in [-R/2, R/2].  The center of block i is computed from the three stream
draws at positions 9i+1, 9i+2, 9i+3 alone, and distinct blocks read disjoint
draw positions, so no center is shared or reused across blocks. -/
theorem C5_block_clustering (g : Nat → ℚ) (R : ℚ) (count i : Nat)
    (hi : i < count) (hg : ∀ m, 0 ≤ g m ∧ g m < 1) (hR : 0 ≤ R) :
    ((createBlocks g R count).getD i defaultBlock).position =
      Vec3.add (mkClusterCenter g (9*i+1)) (clusterOffset g R (9*i+4)) ∧
    (∀ c ∈ [(mkClusterCenter g (9*i+1)).x, (mkClusterCenter g (9*i+1)).y,
        (mkClusterCenter g (9*i+1)).z], -5 ≤ c ∧ c < 5) ∧
    (∀ c ∈ [(clusterOffset g R (9*i+4)).x, (clusterOffset g R (9*i+4)).y,
        (clusterOffset g R (9*i+4)).z], -(R/2) ≤ c ∧ c ≤ R/2) ∧
    (∀ g2 : Nat → ℚ,
      (∀ m ∈ [9*i+1, 9*i+2, 9*i+3], g2 m = g m) →
      mkClusterCenter g2 (9*i+1) = mkClusterCenter g (9*i+1)) ∧
    (∀ j : Nat, j ≠ i → ∀ a ∈ [9*i+1, 9*i+2, 9*i+3],
      ∀ b ∈ [9*j+1, 9*j+2, 9*j+3], a ≠ b) := by
  refine ⟨?_, ?_, ?_, ?_, ?_⟩
  · rw [createBlocks_getD g R count i hi]
    rfl
  · intro c hc
    simp only [mkClusterCenter, List.mem_cons, List.not_mem_nil, or_false] at hc
    rcases hc with hc | hc | hc <;> rw [hc] <;>
      exact shift10_bounds (hg _).1 (hg _).2
  · intro c hc
    simp only [clusterOffset, List.mem_cons, List.not_mem_nil, or_false] at hc
    rcases hc with hc | hc | hc <;> rw [hc] <;>
      exact shiftR_bounds (hg _).1 (hg _).2 hR
  · intro g2 hg2
    have e1 : g2 (9*i+1) = g (9*i+1) := hg2 _ (by simp)
    have e2 : g2 (9*i+1+1) = g (9*i+1+1) := by
      have h12 : 9*i+1+1 = 9*i+2 := by omega
      rw [h12]
      exact hg2 _ (by simp)
    have e3 : g2 (9*i+1+2) = g (9*i+1+2) := by
      have h13 : 9*i+1+2 = 9*i+3 := by omega
      rw [h13]
      exact hg2 _ (by simp)
    simp only [mkClusterCenter, e1, e2, e3]
  · intro j hj a ha b hb
    simp only [List.mem_cons, List.not_mem_nil, or_false] at ha hb
    rcases ha with ha | ha | ha <;> rcases hb with hb | hb | hb <;> omega

/-- Witness for C5: with the constant-1/2 stream and clustering radius 8, the
single generated block sits at center (0,0,0) plus offset (0,0,0). -/
theorem C5_block_clustering_witness :
    ((createBlocks (fun _ => (1:ℚ)/2) 8 1).getD 0 defaultBlock).position =
      ⟨0, 0, 0⟩ := by
  have h := (C5_block_clustering (fun _ => (1:ℚ)/2) 8 1 0 (by norm_num)
    (fun m => by norm_num) (by norm_num)).1
  rw [h]
  norm_num [mkClusterCenter, clusterOffset, Vec3.add]

/-- C8: one animate invocation adds exactly 2/1000 = 0.002 radians to both
rotation angles of the block group (a fixed per-callback increment: the
result does not depend on the callback timestamp t), runs the per-frame
particle update on the particle list, bumps the camera-controls update
counter by one, and finally requests a render whose snapshot shows the
already-updated rotation, particles and controls — the render comes after
all three updates. -/
theorem C8_frame_driver (g : Nat → ℚ) (t t2 : ℚ) (s : FrameState) :
    (animate g t s).rotX = s.rotX + 2/1000 ∧
    (animate g t s).rotY = s.rotY + 2/1000 ∧
    (animate g t s).particles = (animateParticles g s.randIdx s.particles).1 ∧
    (animate g t s).randIdx = (animateParticles g s.randIdx s.particles).2 ∧
    (animate g t s).controlsUpdates = s.controlsUpdates + 1 ∧
    (animate g t s).lastRender =
      some ⟨(animate g t s).rotX, (animate g t s).rotY,
            (animate g t s).particles.map Particle.position,
            (animate g t s).controlsUpdates⟩ ∧
    animate g t s = animate g t2 s :=
  ⟨rfl, rfl, rfl, rfl, rfl, rfl, rfl⟩
